import Mathlib

/-
Verification of the plugin lifecycle manager of mplug (a plugin manager for
the mpv media player), against its natural-language specification.

The development shallowly embeds the Python modules `mplug/util.py` and
`mplug/mplug.py`:
  * strings are Lean strings (lists of characters);
  * filesystem paths are lists of components; the filesystem is a finite
    association list from paths to nodes (regular file/directory, or symlink);
  * `Path.exists` follows symlink chains (fuel-bounded), `Path.is_symlink`
    inspects the final component only, `Path.resolve` follows chains;
  * user interaction (ask_yes_no / ask_num / ask_path) is an external oracle
    carried in the configuration, consumed with a running prompt counter;
  * the download/git collaborators are treated as opaque fetch strategies:
    each fetch is recorded in an action trace and its effect on the
    filesystem is to materialise the target path;
  * `sys.exit(n)` and uncaught Python exceptions (KeyError, OSError) are
    error values of an `Except`; an error means the process terminated
    before the ledger was saved to disk.
-/

namespace Mplug

/-! ## Python string helpers (util.py) -/

/-- Python str.lower, restricted to the character-wise lowering Lean offers.
Catalog/search strings in the claims are ASCII, where this agrees. -/
def strLower (s : String) : String :=
  String.mk (s.toList.map Char.toLower)

/-- Contiguous-substring test on character lists, matching Python's
semantics of `needle in hay` (the empty needle is contained everywhere). -/
def containsSub (needle : List Char) : List Char → Bool
  | [] => needle.isEmpty
  | c :: t => needle.isPrefixOf (c :: t) || containsSub needle t

/-- Python `needle in hay` substring test. -/
def pyIn (needle hay : String) : Bool :=
  containsSub needle.toList hay.toList

/-- Fueled engine for Python str.replace: replace every non-overlapping
occurrence of `pat` (nonempty) left to right.  Fuel bounds the scan; it is
instantiated with the length of the subject, which always suffices. -/
def replaceAllF (pat rep : List Char) : Nat → List Char → List Char
  | _, [] => []
  | 0, s => s
  | fuel + 1, c :: rest =>
    if pat ≠ [] ∧ pat.isPrefixOf (c :: rest) then
      rep ++ replaceAllF pat rep fuel ((c :: rest).drop pat.length)
    else
      c :: replaceAllF pat rep fuel rest

/-- Python str.replace (for a nonempty pattern). -/
def replaceAll (pat rep s : List Char) : List Char :=
  replaceAllF pat rep s.length s

/-- Fueled engine for the `re.sub` calls of `resolve_templates`: the pattern
is an optional literal dot followed by the literal `marker`; the replacement
is a function of the captured group (the dot when present, else empty),
mirroring the backreference in the Python replacement strings. -/
def subExtAllF (marker : List Char) (rep : List Char → List Char) :
    Nat → List Char → List Char
  | _, [] => []
  | 0, s => s
  | fuel + 1, c :: rest =>
    if ('.' :: marker).isPrefixOf (c :: rest) then
      rep ['.'] ++ subExtAllF marker rep fuel ((c :: rest).drop (marker.length + 1))
    else if marker ≠ [] ∧ marker.isPrefixOf (c :: rest) then
      rep [] ++ subExtAllF marker rep fuel ((c :: rest).drop marker.length)
    else
      c :: subExtAllF marker rep fuel rest

/-- Substitute every occurrence of the optional-dot extension pattern. -/
def subExtAll (marker : List Char) (rep : List Char → List Char) (s : List Char) :
    List Char :=
  subExtAllF marker rep s.length s

/-- Host identification, the environment inputs of `resolve_templates` and
`check_os`: `osName` is platform.system().lower(), `osTitle` is
platform.system().title(), `arch` is platform.machine(). -/
structure Host where
  osName : String
  osTitle : String
  arch : String

/-- util.resolve_templates: replace placeholders in the given url/filename.
The extension placeholders are substituted first (consuming a preceding
literal dot into the capture group), then the os / arch / arch-short
placeholders literally. -/
def resolve_templates (h : Host) (text : String) : String :=
  let osName := h.osName
  let arch := h.arch
  let archShort := replaceAll ("x86_".toList) ("x".toList) arch.toList
  let sharedRep : List Char → List Char :=
    if osName = "windows" then (fun g => g ++ ("dll".toList))
    else (fun g => g ++ ("so".toList))
  let exeRep : List Char → List Char :=
    if osName = "windows" then (fun g => g ++ ("exe".toList))
    else (fun _ => [])
  let t1 := subExtAll ("\x7b\x7bshared-lib-ext\x7d\x7d".toList) sharedRep text.toList
  let t2 := subExtAll ("\x7b\x7bexecutable-ext\x7d\x7d".toList) exeRep t1
  let t3 := replaceAll ("\x7b\x7bos\x7d\x7d".toList) osName.toList t2
  let t4 := replaceAll ("\x7b\x7barch\x7d\x7d".toList) arch.toList t3
  let t5 := replaceAll ("\x7b\x7barch-short\x7d\x7d".toList) archShort t4
  String.mk t5

/-! ## Filesystem model -/

/-- A filesystem path, as its list of components. -/
abbrev Path := List String

/-- A filesystem node: a regular file or directory, or a symbolic link
holding a target path. -/
inductive FsNode where
  | file : FsNode
  | symlink : Path → FsNode
deriving DecidableEq

/-- The filesystem: a finite map from paths to nodes, as an association
list without duplicate keys (insertions are canonicalising). -/
abbrev FS := List (Path × FsNode)

/-- Look a path up in the filesystem (no symlink following). -/
def lookupFS : FS → Path → Option FsNode
  | [], _ => none
  | (q, v) :: rest, p => if q = p then some v else lookupFS rest p

/-- Remove a path from the filesystem (os.remove / os.unlink). -/
def eraseFS (fs : FS) (p : Path) : FS :=
  fs.filter (fun kv => kv.1 ≠ p)

/-- Add or overwrite a node at a path. -/
def insertFS (fs : FS) (p : Path) (v : FsNode) : FS :=
  (p, v) :: eraseFS fs p

/-- Fuel-bounded test whether a path exists, following symlink chains, as
Python's Path.exists does; a dangling or cyclic symlink does not exist. -/
def existsFuel (fs : FS) : Nat → Path → Bool
  | 0, _ => false
  | fuel + 1, p =>
    match lookupFS fs p with
    | some .file => true
    | some (.symlink t) => existsFuel fs fuel t
    | none => false

/-- Fuel-bounded Path.resolve: follow the symlink chain to its end (a
non-symlink node, a missing path, or fuel exhaustion on a cycle). -/
def resolveFuel (fs : FS) : Nat → Path → Path
  | 0, p => p
  | fuel + 1, p =>
    match lookupFS fs p with
    | some (.symlink t) => resolveFuel fs fuel t
    | _ => p

/-- Path.exists: any terminating chain has at most one link per filesystem
entry, so `fs.length + 1` fuel is always enough. -/
def existsPath (fs : FS) (p : Path) : Bool :=
  existsFuel fs (fs.length + 1) p

/-- Path.resolve. -/
def resolvePath (fs : FS) (p : Path) : Path :=
  resolveFuel fs (fs.length + 1) p

/-- Path.is_symlink: true iff the path itself is a symlink (dangling or
not); never follows the chain. -/
def isSymlink (fs : FS) (p : Path) : Bool :=
  match lookupFS fs p with
  | some (.symlink _) => true
  | _ => false

/-- shutil.rmtree: delete the directory tree rooted at `dir`; fails when the
root does not exist. -/
def rmtree (fs : FS) (dir : Path) : Option FS :=
  if (lookupFS fs dir).isSome then
    some (fs.filter (fun kv => ¬ dir.isPrefixOf kv.1))
  else
    none

/-- Split a character list at every slash (auxiliary for `comps`). -/
def splitSlashAux (cur : List Char) : List Char → List (List Char)
  | [] => [cur.reverse]
  | c :: rest =>
    if c = '/' then cur.reverse :: splitSlashAux [] rest
    else splitSlashAux (c :: cur) rest

/-- Split a string path into its nonempty components, as pathlib
normalises `a//b/` to components `a`, `b`. -/
def comps (s : String) : Path :=
  ((splitSlashAux [] s.toList).map (fun l => String.mk l)).filter (fun c => c ≠ "")

/-- pathlib `Path(file).name` as a zero-or-one component path: the last
component, or nothing when the string has none. -/
def nameOf (s : String) : Path :=
  match comps s with
  | [] => []
  | c :: rest => [(c :: rest).getLastD ""]

/-! ## Data model (catalog entries, ledger records) -/

/-- A catalog entry / installed-plugin record.  The Python implementation
stores these as JSON dictionaries; the fields below are the keys the
lifecycle manager reads, each optional exactly because a dictionary key may
be absent (`Option.none` models a missing key, raising KeyError on direct
subscription). -/
structure Plugin where
  name : Option String := none
  desc : Option String := none
  install : Option String := none
  receiving_url : Option String := none
  install_dir : Option String := none
  filename : Option String := none
  os : Option (List String) := none
  scriptfiles : Option (List String) := none
  shaderfiles : Option (List String) := none
  fontfiles : Option (List String) := none
  scriptoptfiles : Option (List String) := none
  ladspafiles : Option (List String) := none
  exefiles : Option (List String) := none
  exedir : Option Path := none
  install_date : Option String := none
  state : Option String := none
deriving DecidableEq

/-- Association-list lookup for the catalog and the ledger (Python dict
subscription, insertion-ordered). -/
def lookupL {β : Type} : List (String × β) → String → Option β
  | [], _ => none
  | (k, v) :: rest, key => if k = key then some v else lookupL rest key

/-- The ways the process terminates abnormally: an explicit sys.exit code,
an uncaught KeyError on a missing dictionary key, or an uncaught OSError. -/
inductive Err where
  | exit : Nat → Err
  | keyError : String → Err
  | osError : String → Err
deriving DecidableEq

/-- The opaque fetch/refresh collaborators, recorded as a trace: cloning or
pulling a repository, downloading a single file, downloading and extracting
an archive, and refreshing the plugin catalog. -/
inductive Action where
  | gitClonePull : String → Path → Action
  | gitPull : Path → Action
  | downloadFile : String → Path → Action
  | downloadTar : String → Path → Action
  | updateCatalog : Action
deriving DecidableEq

/-- Static configuration of one MPlug invocation: directories resolved by
__get_dirs__, the host identification, the loaded catalog, and the oracles
for the interactive prompts (indexed by a running prompt counter: each
ask_yes_no / ask_num / ask_path call consumes one index). -/
structure Config where
  workdir : Path
  mpvdir : Path
  ladspaDir : Path
  host : Host
  scriptDirectory : List (String × Plugin)
  answers : Nat → Bool
  numAnswers : Nat → Option Nat
  pathAnswers : Nat → Path
  now : String

/-- Mutable state of one invocation: the filesystem and the in-memory
ledger of installed plugins (persisted only when the command finishes
without exiting). -/
structure MState where
  fs : FS
  ledger : List (String × Plugin)
deriving DecidableEq

/-- The per-category installation directories, in the insertion order of
the Python dict: scripts, shaders, fonts, script-opts, ladspa. -/
def installationDirs (cfg : Config) : List ((Plugin → Option (List String)) × Path) :=
  [(Plugin.scriptfiles, cfg.mpvdir ++ ["scripts"]),
   (Plugin.shaderfiles, cfg.mpvdir ++ ["shaders"]),
   (Plugin.fontfiles, cfg.mpvdir ++ ["fonts"]),
   (Plugin.scriptoptfiles, cfg.mpvdir ++ ["script-opts"]),
   (Plugin.ladspafiles, cfg.ladspaDir)]

/-! ## Symlink installer / uninstaller (MPlug.__install_files__ and
MPlug.__uninstall_files__) -/

/-- The body of the `for file in filelist` loop of __install_files__,
threading the filesystem, the prompt counter and the returned list of
installed targets.  Each entry is template-resolved; a missing source is
fatal (exit 14); an existing non-symlink destination is fatal (exit 15); a
symlink to a different resolved target prompts for overwrite, declining is
`sys.exit(15)`; a symlink already resolving to the source is skipped and
not reported. -/
def installFilesLoop (host : Host) (ans : Nat → Bool) (srcdir dstdir : Path) :
    FS → Nat → List String → Except Err (FS × Nat × List Path)
  | fs, k, [] => .ok (fs, k, [])
  | fs, k, f0 :: rest =>
    let f := resolve_templates host f0
    let src := srcdir ++ comps f
    let dst := dstdir ++ nameOf f
    if existsPath fs src = false then .error (.exit 14)
    else if existsPath fs dst = true ∧ isSymlink fs dst = false then .error (.exit 15)
    else
      let step1 : Except Err (FS × Nat) :=
        if isSymlink fs dst = true ∧ resolvePath fs dst ≠ resolvePath fs src then
          if ans k then .ok (eraseFS fs dst, k + 1) else .error (.exit 15)
        else .ok (fs, k)
      match step1 with
      | .error e => .error e
      | .ok (fs1, k1) =>
        if isSymlink fs1 dst = true ∧ resolvePath fs1 dst = resolvePath fs1 src then
          installFilesLoop host ans srcdir dstdir fs1 k1 rest
        else
          match installFilesLoop host ans srcdir dstdir (insertFS fs1 dst (.symlink src)) k1 rest with
          | .error e => .error e
          | .ok (fs2, k2, out) => .ok (fs2, k2, dst :: out)

/-- MPlug.__install_files__: create the destination directory when absent,
then link every file of the list. -/
def install_files (host : Host) (ans : Nat → Bool) (fs : FS) (k : Nat)
    (srcdir : Path) (filelist : List String) (dstdir : Path) :
    Except Err (FS × Nat × List Path) :=
  let fs0 := if existsPath fs dstdir = true then fs else insertFS fs dstdir .file
  installFilesLoop host ans srcdir dstdir fs0 k filelist

/-- MPlug.__uninstall_files__: for each template-resolved entry, skip a
destination that does not exist (following symlinks, so dangling links are
skipped and left in place), abort with exit 12 when it exists but is not a
symlink, otherwise remove the link. -/
def uninstall_files (host : Host) : FS → List String → Path → Except Err FS
  | fs, [], _ => .ok fs
  | fs, f0 :: rest, folder =>
    let dst := folder ++ nameOf (resolve_templates host f0)
    if existsPath fs dst = false then uninstall_files host fs rest folder
    else if isSymlink fs dst = false then .error (.exit 12)
    else uninstall_files host (eraseFS fs dst) rest folder

/-! ## Lifecycle manager operations (class MPlug) -/

/-- MPlug.__plugin_id_by_name__: ids of all catalog entries whose `name`
field equals the given name, in catalog order; subscripting `value["name"]`
raises KeyError when an entry has no name. -/
def plugin_id_by_name (pluginname : String) :
    List (String × Plugin) → Except Err (List String)
  | [] => .ok []
  | (key, v) :: rest =>
    match v.name with
    | none => .error (.keyError "name")
    | some n =>
      match plugin_id_by_name pluginname rest with
      | .error e => .error e
      | .ok l => .ok (if n = pluginname then key :: l else l)

/-- interaction.check_os: an empty restriction list is unrestricted; a list
containing the host's title-cased system name passes; otherwise the user is
asked whether to continue anyway (consuming one prompt). -/
def check_os (cfg : Config) (k : Nat) (supported : List String) : Bool × Nat :=
  if supported = [] then (true, k)
  else if cfg.host.osTitle ∈ supported then (true, k)
  else (cfg.answers k, k + 1)

/-- The candidate-collection loop of MPlug.search: the lowered search
string is matched against the raw `name` field and against the lowered
`desc` field of every catalog entry; matching ids and their descriptions
are collected in catalog order. -/
def searchCandidates (catalog : List (String × Plugin)) (searchString : String) :
    List String × List String :=
  let s := strLower searchString
  match catalog with
  | [] => ([], [])
  | (key, v) :: rest =>
    let (ps, ds) := searchCandidates rest searchString
    if pyIn s (v.name.getD "") then (key :: ps, (v.desc.getD "") :: ds)
    else if pyIn s (strLower (v.desc.getD "")) then (key :: ps, (v.desc.getD "") :: ds)
    else (ps, ds)

/-- Remove a plugin id from the ledger (del self.installed_plugins[id]). -/
def ledgerErase (l : List (String × Plugin)) (pid : String) : List (String × Plugin) :=
  l.filter (fun kv => kv.1 ≠ pid)

/-- Overwrite the record of a plugin id in place (mutating the dict held by
the ledger). -/
def ledgerSet (l : List (String × Plugin)) (pid : String) (p : Plugin) :
    List (String × Plugin) :=
  l.map (fun kv => if kv.1 = pid then (pid, p) else kv)

/-- Python dict assignment self.installed_plugins[pid] = p: replace in
place when present, append otherwise. -/
def ledgerInsert (l : List (String × Plugin)) (pid : String) (p : Plugin) :
    List (String × Plugin) :=
  if (lookupL l pid).isSome then ledgerSet l pid p else l ++ [(pid, p)]

/-- The per-category uninstall loop of MPlug.uninstall (step 2). -/
def uninstallCats (host : Host) :
    FS → List ((Plugin → Option (List String)) × Path) → Plugin → Except Err FS
  | fs, [], _ => .ok fs
  | fs, (getter, dir) :: rest, p =>
    match uninstall_files host fs ((getter p).getD []) dir with
    | .error e => .error e
    | .ok fs' => uninstallCats host fs' rest p

/-- MPlug.uninstall: remove or disable a plugin.  Subscripting the ledger
and the `install_dir` key raises KeyError when absent.  After removing the
category symlinks (and the executable links when their location is
recorded), `remove = true` deletes the fetched tree and the ledger entry,
while `remove = false` keeps both and marks the record disabled. -/
def uninstall (cfg : Config) (st : MState) (plugin_id : String)
    (remove : Bool) : Except Err MState :=
  match lookupL st.ledger plugin_id with
  | none => .error (.keyError plugin_id)
  | some plugin =>
    match plugin.install_dir with
    | none => .error (.keyError "install_dir")
    | some d =>
      let install_dir := cfg.workdir ++ comps d
      match uninstallCats cfg.host st.fs (installationDirs cfg) plugin with
      | .error e => .error e
      | .ok fs1 =>
        let exefiles := plugin.exefiles.getD []
        let afterExe : Except Err FS :=
          if exefiles ≠ [] then
            match plugin.exedir with
            | some exedir => uninstall_files cfg.host fs1 exefiles exedir
            | none => .ok fs1   -- unknown location: logged as an error, skipped
          else .ok fs1
        match afterExe with
        | .error e => .error e
        | .ok fs2 =>
          if remove then
            match rmtree fs2 install_dir with
            | none => .error (.osError "rmtree")
            | some fs3 => .ok ⟨fs3, ledgerErase st.ledger plugin_id⟩
          else
            .ok ⟨fs2, ledgerSet st.ledger plugin_id
                        (let p' := plugin
                         { p' with state := some "disabled" })⟩

/-- MPlug.uninstall_by_name: a name that is itself a catalog key is passed
straight to `uninstall` — with the default `remove = true`, dropping the
caller's flag, exactly as the Python source does.  Otherwise the name is
resolved through the catalog's `name` fields: zero or several matches exit
with code 10; a single match is confirmed with the user (declining exits
with 0) and then uninstalled with the caller's flag. -/
def uninstall_by_name (cfg : Config) (st : MState) (pluginname : String)
    (remove : Bool) (k : Nat) : Except Err (MState × Nat) :=
  if (lookupL cfg.scriptDirectory pluginname).isSome then
    match uninstall cfg st pluginname true with
    | .error e => .error e
    | .ok st' => .ok (st', k)
  else
    match plugin_id_by_name pluginname cfg.scriptDirectory with
    | .error e => .error e
    | .ok [] => .error (.exit 10)
    | .ok [p] =>
      if cfg.answers k then
        match uninstall cfg st p remove with
        | .error e => .error e
        | .ok st' => .ok (st', k + 1)
      else .error (.exit 0)
    | .ok (_ :: _ :: _) => .error (.exit 10)

/-- The per-category install loop of MPlug.install (step 5). -/
def installCats (host : Host) (ans : Nat → Bool) :
    FS → Nat → Path → List ((Plugin → Option (List String)) × Path) → Plugin →
    Except Err (FS × Nat)
  | fs, k, _, [], _ => .ok (fs, k)
  | fs, k, instdir, (getter, dir) :: rest, p =>
    match install_files host ans fs k instdir ((getter p).getD []) dir with
    | .error e => .error e
    | .ok (fs', k', _) => installCats host ans fs' k' instdir rest p

/-- git_clone_or_pull / download_tar viewed as opaque fetch strategies:
their observable filesystem effect is to materialise the target directory. -/
def ensureDir (fs : FS) (dir : Path) : FS :=
  if existsPath fs dir = true then fs else insertFS fs dir .file

/-- MPlug.install: look the id up in the catalog (KeyError when absent),
fail with exit 4 when the entry has no `install` method, check the os
restriction (declining exits 0), read `install_dir` and `receiving_url`
(a missing one exits 13; only the url is template-resolved), dispatch the
fetch strategy (an unknown method exits 5; for the `url` method the
`filename` is subscripted — KeyError when absent — and used verbatim),
install the per-category symlinks, link the executables into the
user-chosen directory, then snapshot the record with `install_date` and
`state = active` into the ledger.  The accumulated fetch trace is returned
with the result, and attached to errors raised after the dispatch. -/
def install (cfg : Config) (st : MState) (plugin_id : String) (k : Nat) :
    Except (Err × List Action) (MState × Nat × List Action) :=
  match lookupL cfg.scriptDirectory plugin_id with
  | none => .error (.keyError plugin_id, [])
  | some plugin =>
    match plugin.install with
    | none => .error (.exit 4, [])
    | some method =>
      let (osOk, k1) := check_os cfg k (plugin.os.getD [])
      if osOk = false then .error (.exit 0, [])
      else
        match plugin.install_dir with
        | none => .error (.exit 13, [])
        | some d =>
          match plugin.receiving_url with
          | none => .error (.exit 13, [])
          | some u =>
            let install_dir := cfg.workdir ++ comps d
            let url := resolve_templates cfg.host u
            let fetched : Except (Err × List Action) (FS × List Action) :=
              if method = "git" then
                .ok (ensureDir st.fs install_dir, [.gitClonePull url install_dir])
              else if method = "url" then
                match plugin.filename with
                | none => .error (.keyError "filename", [])
                | some f =>
                  .ok (insertFS st.fs (install_dir ++ comps f) .file,
                       [.downloadFile url (install_dir ++ comps f)])
              else if method = "tar" then
                .ok (ensureDir st.fs install_dir, [.downloadTar url install_dir])
              else .error (.exit 5, [])
            match fetched with
            | .error e => .error e
            | .ok (fs1, tr) =>
              match installCats cfg.host cfg.answers fs1 k1 install_dir
                      (installationDirs cfg) plugin with
              | .error e => .error (e, tr)
              | .ok (fs2, k2) =>
                -- a present ladspafiles key without LADSPA_PATH only warns
                match plugin.exefiles with
                | some exl =>
                  let exedir := cfg.pathAnswers k2
                  match install_files cfg.host cfg.answers fs2 (k2 + 1)
                          install_dir exl exedir with
                  | .error e => .error (e, tr)
                  | .ok (fs3, k4, _) =>
                    -- make_files_executable: file modes are outside the model
                    .ok (⟨fs3, ledgerInsert st.ledger plugin_id
                            { plugin with exedir := some exedir,
                                          install_date := some cfg.now,
                                          state := some "active" }⟩, k4, tr)
                | none =>
                  .ok (⟨fs2, ledgerInsert st.ledger plugin_id
                          { plugin with install_date := some cfg.now,
                                        state := some "active" }⟩, k2, tr)

/-- interaction.ask_num: the oracle provides the entered number (none for
non-numeric input, interrupt or EOF); out-of-range numbers yield none. -/
def askNum (cfg : Config) (k : Nat) (options : List String) : Option String :=
  match cfg.numAnswers k with
  | none => none
  | some i => options[i]?

/-- MPlug.__install_from_list__: no candidate exits 3; a single candidate
is confirmed yes/no (declining exits 0); several are offered as a numbered
choice, and a falsy answer (no valid selection, or the empty-string id)
exits 0. -/
def install_from_list (cfg : Config) (st : MState) (plugins : List String)
    (k : Nat) : Except (Err × List Action) (MState × Nat × List Action) :=
  match plugins with
  | [] => .error (.exit 3, [])
  | [p] =>
    if cfg.answers k then install cfg st p (k + 1)
    else .error (.exit 0, [])
  | _ :: _ :: _ =>
    match askNum cfg k plugins with
    | some choice =>
      if choice ≠ "" then install cfg st choice (k + 1)
      else .error (.exit 0, [])
    | none => .error (.exit 0, [])

/-- MPlug.install_by_name: a catalog key installs directly; otherwise the
ids carrying the name are collected and offered for selection. -/
def install_by_name (cfg : Config) (st : MState) (pluginname : String)
    (k : Nat) : Except (Err × List Action) (MState × Nat × List Action) :=
  if (lookupL cfg.scriptDirectory pluginname).isSome then
    install cfg st pluginname k
  else
    match plugin_id_by_name pluginname cfg.scriptDirectory with
    | .error e => .error (e, [])
    | .ok plugins => install_from_list cfg st plugins k

/-- MPlug.search: collect the candidates, then run the common selection
flow (the collected descriptions only affect the prompt text). -/
def search (cfg : Config) (st : MState) (searchString : String) (k : Nat) :
    Except (Err × List Action) (MState × Nat × List Action) :=
  install_from_list cfg st (searchCandidates cfg.scriptDirectory searchString).1 k

/-- One iteration of the MPlug.upgrade loop: subscripting `name`,
`install_dir`, `receiving_url` and `install` raises KeyError when absent;
the recognised methods re-run their fetch strategy (for `url` the filename
is template-resolved here); an unrecognised method only logs an error and
contributes nothing. -/
def upgradeStep (cfg : Config) (fs : FS) (p : Plugin) :
    Except Err (FS × List Action) :=
  match p.name with
  | none => .error (.keyError "name")
  | some _ =>
    match p.install_dir with
    | none => .error (.keyError "install_dir")
    | some d =>
      match p.receiving_url with
      | none => .error (.keyError "receiving_url")
      | some u =>
        let install_dir := cfg.workdir ++ comps d
        let url := resolve_templates cfg.host u
        match p.install with
        | none => .error (.keyError "install")
        | some method =>
          if method = "git" then .ok (fs, [.gitPull install_dir])
          else if method = "tar" then
            .ok (ensureDir fs install_dir, [.downloadTar url install_dir])
          else if method = "url" then
            match p.filename with
            | none => .error (.keyError "filename")
            | some f =>
              let target := install_dir ++ comps (resolve_templates cfg.host f)
              .ok (insertFS fs target .file, [.downloadFile url target])
          else .ok (fs, [])   -- unknown method: logged, skipped

/-- The iteration of MPlug.upgrade over every ledger entry (regardless of
state), threading the filesystem and the fetch trace. -/
def upgradeLoop (cfg : Config) :
    FS → List Action → List (String × Plugin) →
    Except (Err × List Action) (FS × List Action)
  | fs, tr, [] => .ok (fs, tr)
  | fs, tr, (_, p) :: rest =>
    match upgradeStep cfg fs p with
    | .error e => .error (e, tr)
    | .ok (fs', acts) => upgradeLoop cfg fs' (tr ++ acts) rest

/-- MPlug.upgrade: refresh the catalog first, then re-fetch every ledger
entry.  The ledger itself is never modified. -/
def upgrade (cfg : Config) (st : MState) :
    Except (Err × List Action) (FS × List Action) :=
  upgradeLoop cfg st.fs [.updateCatalog] st.ledger

/-- MPlug.list_installed: the ids in ledger order, disabled ones
annotated (the verbose description lines are presentation only). -/
def list_installed (st : MState) : List String :=
  st.ledger.map (fun kv =>
    if kv.2.state = some "disabled" then kv.1 ++ " [DISABLED]" else kv.1)

/-- Projection of an install result onto its fetch trace (on success and
on a failure after the dispatch alike). -/
def traceOf : Except (Err × List Action) (MState × Nat × List Action) → List Action
  | .error (_, tr) => tr
  | .ok (_, _, tr) => tr

/-! ## Concrete fixtures for witnesses and counterexamples -/

/-- A Linux host, as platform.system / platform.machine report it. -/
def hostLinux : Host := ⟨"linux", "Linux", "x86_64"⟩

/-- A Windows host. -/
def hostWindows : Host := ⟨"windows", "Windows", "AMD64"⟩

/-- An interaction oracle that confirms every yes/no prompt. -/
def ansTrue : Nat → Bool := fun _ => true

/-- An interaction oracle that declines every yes/no prompt. -/
def ansFalse : Nat → Bool := fun _ => false

/-- An interaction oracle that confirms only the first yes/no prompt. -/
def ansFirst : Nat → Bool := fun n => n = 0

/-- A configuration over a given catalog and yes/no oracle, with fixed
directories on the Linux host. -/
def cfgOf (catalog : List (String × Plugin)) (ans : Nat → Bool) : Config where
  workdir := ["w"]
  mpvdir := ["m"]
  ladspaDir := ["l"]
  host := hostLinux
  scriptDirectory := catalog
  answers := ans
  numAnswers := fun _ => none
  pathAnswers := fun _ => ["e"]
  now := "2020-08-01T00:00:00"

/-- An installed plugin with one script file, fetched via git. -/
def plugP : Plugin where
  name := some "P"
  install := some "git"
  receiving_url := some "u"
  install_dir := some "pd"
  scriptfiles := some ["a.lua"]
  state := some "active"

/-- The on-disk state after installing plugP: the script symlink in the
scripts directory, and the fetched content under the working directory. -/
def fsP : FS :=
  [(["m", "scripts", "a.lua"], .symlink ["w", "pd", "a.lua"]),
   (["w", "pd"], .file),
   (["w", "pd", "a.lua"], .file)]

/-- A catalog entry installed by single-file download whose directory and
filename carry template placeholders. -/
def plugU : Plugin where
  name := some "p"
  install := some "url"
  install_dir := some "d\x7b\x7bos\x7d\x7d"
  receiving_url := some "u"
  filename := some "f.\x7b\x7bexecutable-ext\x7d\x7d"

/-- A ledger record missing its `install` key (but carrying the other
fields upgrade reads first). -/
def plugNoMethod : Plugin where
  name := some "a"
  install_dir := some "ad"
  receiving_url := some "u"

/-- A well-formed git-installed ledger record. -/
def plugGitB : Plugin where
  name := some "b"
  install := some "git"
  install_dir := some "bd"
  receiving_url := some "u"

/-- A ledger record with an unrecognised install method. -/
def plugUnk : Plugin where
  name := some "c"
  install := some "zipp"
  install_dir := some "cd"
  receiving_url := some "u"

/-- A catalog entry with no `install` field. -/
def plugX : Plugin where
  name := some "X"

/-- A catalog entry whose name is upper-case. -/
def plugFOO : Plugin where
  name := some "FOO"
  desc := some ""


/-- Whether a string contains any of the five supported placeholders. -/
def hasPlaceholder (s : String) : Bool :=
  containsSub ("\x7b\x7bshared-lib-ext\x7d\x7d".toList) s.toList ||
  containsSub ("\x7b\x7bexecutable-ext\x7d\x7d".toList) s.toList ||
  containsSub ("\x7b\x7bos\x7d\x7d".toList) s.toList ||
  containsSub ("\x7b\x7barch\x7d\x7d".toList) s.toList ||
  containsSub ("\x7b\x7barch-short\x7d\x7d".toList) s.toList

/-- One filesystem refines another: every present path carries the same
node there. -/
def FSsub (fs1 fs2 : FS) : Prop :=
  ∀ q v, lookupFS fs1 q = some v → lookupFS fs2 q = some v

/-- The source path of one filelist entry of __install_files__. -/
def srcOf (host : Host) (srcdir : Path) (f : String) : Path :=
  srcdir ++ comps (resolve_templates host f)

/-- The destination path of one filelist entry of __install_files__. -/
def dstOf (host : Host) (dstdir : Path) (f : String) : Path :=
  dstdir ++ nameOf (resolve_templates host f)

/-- The sequence of symlinks created by a fresh install run. -/
def buildLinks (host : Host) (srcdir dstdir : Path) : FS → List String → FS
  | fs, [] => fs
  | fs, f :: rest =>
    buildLinks host srcdir dstdir
      (insertFS fs (dstOf host dstdir f) (.symlink (srcOf host srcdir f))) rest

/-- The filesystem of the C3 scenario: the destination directory d, the
stale link d/f pointing at x, the file x, and the source s/f. -/
def fs3 : FS :=
  [(["d"], .file), (["d", "f"], .symlink ["x"]), (["x"], .file), (["s", "f"], .file)]

/-- The filesystem of the C8 scenarios: sources s/a/f and s/b/f sharing
the basename f, and the empty destination directory d. -/
def fs8 : FS := [(["s", "a", "f"], .file), (["s", "b", "f"], .file), (["d"], .file)]

/-- The filesystem after the first C8 run over ["a/f", "b/f"]: the single
destination d/f ends up pointing at the last writer, s/b/f. -/
def fs8after : FS :=
  [(["d", "f"], .symlink ["s", "b", "f"]),
   (["s", "a", "f"], .file), (["s", "b", "f"], .file), (["d"], .file)]

/-- The fresh C8 witness scenario: distinct basenames a.lua, b.lua. -/
def fs8b : FS := [(["s", "a.lua"], .file), (["s", "b.lua"], .file), (["d"], .file)]

/-- The filesystem after installing ["a.lua", "b.lua"] from fs8b. -/
def fs8bAfter : FS :=
  [(["d", "b.lua"], .symlink ["s", "b.lua"]),
   (["d", "a.lua"], .symlink ["s", "a.lua"]),
   (["s", "a.lua"], .file), (["s", "b.lua"], .file), (["d"], .file)]


/-! ## C1 -/

/-- C1: the claim states that disable — uninstall_by_name with
remove = false — retains the ledger entry (marked disabled) and the fetched
install_dir content also when the given name is itself a catalog key.  The
code violates this: the catalog-key fast path forwards to `uninstall`
without the `remove` argument, so Python's default `remove = True` applies.
Evaluated at the failing input (plugin "P" installed, "P" a catalog key,
disable requested), the ledger entry is deleted and the install_dir tree
removed from disk: the result state is empty.  This contradicts the tool's
own help text ("disable ID — Disable a plugin without deleting it from the
system"), so the code, not the claim, is wrong. -/
theorem C1_disable_by_catalog_key_removes :
    uninstall_by_name (cfgOf [("P", plugP)] ansTrue) ⟨fsP, [("P", plugP)]⟩ "P" false 0
      = .ok (⟨[], []⟩, 0) := rfl

/-! ## C2 -/

/-- C2 counterexample: the claim says an id absent from the Ledger makes
uninstall fail with exit code 10 (NotInstalled), also when the id is a
valid catalog key that was never installed.  At the concrete input below
("P" in the catalog, ledger empty) the call instead dies with an uncaught
KeyError from `self.installed_plugins[plugin_id]`, a different failure
mode than exit 10. -/
theorem C2_counterexample :
    uninstall_by_name (cfgOf [("P", plugP)] ansTrue) ⟨[], []⟩ "P" true 0
      = .error (.keyError "P") ∧ Err.keyError "P" ≠ Err.exit 10 :=
  ⟨rfl, by decide⟩

/-- C2 amended: uninstall of an id absent from the ledger raises an
uncaught KeyError naming the id (not exit 10); uninstall_by_name exits
with code 10 only when the given name is neither a catalog key nor the
`name` of any catalog entry. -/
theorem C2_amended :
    (∀ (cfg : Config) (st : MState) (pid : String) (remove : Bool),
       lookupL st.ledger pid = none →
       uninstall cfg st pid remove = .error (.keyError pid)) ∧
    (∀ (cfg : Config) (st : MState) (name : String) (remove : Bool) (k : Nat),
       lookupL cfg.scriptDirectory name = none →
       plugin_id_by_name name cfg.scriptDirectory = .ok [] →
       uninstall_by_name cfg st name remove k = .error (.exit 10)) := by
  constructor
  · intro cfg st pid remove h
    unfold uninstall
    rw [h]
  · intro cfg st name remove k h1 h2
    unfold uninstall_by_name
    rw [h1, h2]
    rfl

/-- C2 witness: the amended statement applied at concrete inputs: an empty
ledger makes uninstall of "P" a KeyError, and a name matching nothing in
the catalog makes uninstall_by_name exit 10. -/
theorem C2_witness :
    uninstall (cfgOf [("P", plugP)] ansTrue) ⟨[], []⟩ "P" true
      = .error (.keyError "P") ∧
    uninstall_by_name (cfgOf [("P", plugP)] ansTrue) ⟨[], []⟩ "Q" true 0
      = .error (.exit 10) :=
  ⟨C2_amended.1 (cfgOf [("P", plugP)] ansTrue) ⟨[], []⟩ "P" true rfl,
   C2_amended.2 (cfgOf [("P", plugP)] ansTrue) ⟨[], []⟩ "Q" true 0 rfl rfl⟩

/-! ## C5 -/

/-- C5 counterexample: the claim says search matches the search string
case-insensitively against the `name` field, so searching "foo" against an
entry named "FOO" should return it; the code lowercases the search string
but not the name, and the entry is not returned. -/
theorem C5_counterexample :
    searchCandidates [("id1", plugFOO)] "foo" = ([], []) := rfl

/-- C5 amended: search lowercases the search string and the `desc` fields
but not the `name` fields, so the candidates are exactly the catalog
entries whose raw name contains the lowered search string verbatim, or
whose desc contains it case-insensitively; desc matching is
case-insensitive as claimed, name matching is not. -/
theorem C5_amended (catalog : List (String × Plugin)) (s : String) :
    searchCandidates catalog s
      = ((catalog.filter (fun kv =>
            pyIn (strLower s) (kv.2.name.getD "") ||
            pyIn (strLower s) (strLower (kv.2.desc.getD "")))).map Prod.fst,
         (catalog.filter (fun kv =>
            pyIn (strLower s) (kv.2.name.getD "") ||
            pyIn (strLower s) (strLower (kv.2.desc.getD "")))).map
           (fun kv => kv.2.desc.getD "")) := by
  induction catalog with
  | nil => rfl
  | cons kv rest ih =>
    cases kv with
    | mk key v =>
      simp only [searchCandidates, ih, List.filter]
      cases h1 : pyIn (strLower s) (v.name.getD "") with
      | true => simp [h1]
      | false =>
        cases h2 : pyIn (strLower s) (strLower (v.desc.getD "")) with
        | true => simp [h1, h2]
        | false => simp [h1, h2]

/-! ## C4 -/

/-- C4 counterexample: the claim says install_dir and (for the url method)
filename are template-resolved before use.  At the concrete input below —
a catalog entry with install_dir containing the os placeholder and
filename containing the executable-ext placeholder, installed on the Linux
host — the single fetch downloads to the verbatim, unresolved path; the
claim predicts the resolved path ["w", "dlinux", "f"], which differs. -/
theorem C4_counterexample :
    traceOf (install (cfgOf [("p", plugU)] ansTrue) ⟨[], []⟩ "p" 0)
      = [.downloadFile "u" ["w", "d\x7b\x7bos\x7d\x7d", "f.\x7b\x7bexecutable-ext\x7d\x7d"]] ∧
    (["w", "d\x7b\x7bos\x7d\x7d", "f.\x7b\x7bexecutable-ext\x7d\x7d"] : Path)
      ≠ ["w", "dlinux", "f"] :=
  ⟨rfl, by decide⟩

/-- C4 amended: during install only `receiving_url` is template-resolved;
`install_dir` and the url-method `filename` are used verbatim.  During
upgrade the `filename` (but still not `install_dir`) is additionally
template-resolved. -/
theorem C4_amended :
    (∀ (cfg : Config) (st : MState) (pid : String) (k : Nat) (p : Plugin)
       (d u f : String),
       lookupL cfg.scriptDirectory pid = some p →
       p.install = some "url" → p.os = none → p.install_dir = some d →
       p.receiving_url = some u → p.filename = some f →
       traceOf (install cfg st pid k)
         = [.downloadFile (resolve_templates cfg.host u)
              (cfg.workdir ++ comps d ++ comps f)]) ∧
    (∀ (cfg : Config) (fs : FS) (key : String) (p : Plugin) (nm d u f : String),
       p.name = some nm → p.install_dir = some d → p.receiving_url = some u →
       p.install = some "url" → p.filename = some f →
       upgrade cfg ⟨fs, [(key, p)]⟩
         = .ok (insertFS fs (cfg.workdir ++ comps d ++ comps (resolve_templates cfg.host f))
                  .file,
                [.updateCatalog,
                 .downloadFile (resolve_templates cfg.host u)
                   (cfg.workdir ++ comps d ++ comps (resolve_templates cfg.host f))])) := by
  constructor
  · intro cfg st pid k p d u f hl hi ho hd hu hf
    unfold install
    rw [hl]
    simp only [hi, ho, hd, hu, hf, Option.getD_none]
    rw [show check_os cfg k [] = (true, k) from rfl]
    simp only [String.reduceEq, reduceIte]
    split
    · simp_all
    · repeat' split
      all_goals simp [traceOf]
  · intro cfg fs key p nm d u f hn hd hu hi hf
    unfold upgrade upgradeLoop upgradeStep
    simp only [hn, hd, hu, hi, hf]
    simp [upgradeLoop]

/-- C4 witness: the amended statement applied to the concrete catalog
entry with placeholders in install_dir and filename: the install-time
download target keeps both verbatim, while at upgrade time the filename
placeholder (executable-ext on Linux, consuming the preceding dot) is
resolved but the directory placeholder is not. -/
theorem C4_witness :
    traceOf (install (cfgOf [("p", plugU)] ansTrue) ⟨[], []⟩ "p" 0)
      = [.downloadFile (resolve_templates hostLinux "u")
           (["w"] ++ comps "d\x7b\x7bos\x7d\x7d" ++ comps "f.\x7b\x7bexecutable-ext\x7d\x7d")] ∧
    upgrade (cfgOf [] ansTrue) ⟨[], [("p", plugU)]⟩
      = .ok (insertFS [] (["w"] ++ comps "d\x7b\x7bos\x7d\x7d"
               ++ comps (resolve_templates hostLinux "f.\x7b\x7bexecutable-ext\x7d\x7d")) .file,
             [.updateCatalog,
              .downloadFile (resolve_templates hostLinux "u")
                (["w"] ++ comps "d\x7b\x7bos\x7d\x7d"
                  ++ comps (resolve_templates hostLinux "f.\x7b\x7bexecutable-ext\x7d\x7d"))]) :=
  ⟨C4_amended.1 (cfgOf [("p", plugU)] ansTrue) ⟨[], []⟩ "p" 0 plugU
     "d\x7b\x7bos\x7d\x7d" "u" "f.\x7b\x7bexecutable-ext\x7d\x7d" rfl rfl rfl rfl rfl rfl,
   C4_amended.2 (cfgOf [] ansTrue) [] "p" plugU
     "p" "d\x7b\x7bos\x7d\x7d" "u" "f.\x7b\x7bexecutable-ext\x7d\x7d" rfl rfl rfl rfl rfl⟩

/-! ## C6 -/

/-- C6 counterexample: the claim says an entry with a missing install
method is logged and skipped, with the remaining entries still upgraded.
At the concrete input below (first ledger entry lacking the `install` key,
second a healthy git entry) upgrade instead aborts the whole batch with an
uncaught KeyError right after the catalog refresh: the git entry is never
pulled. -/
theorem C6_counterexample :
    upgrade (cfgOf [] ansTrue) ⟨[], [("a", plugNoMethod), ("b", plugGitB)]⟩
      = .error (.keyError "install", [.updateCatalog]) := rfl

/-- C6 amended: upgrade iterates every ledger entry regardless of state,
and an entry whose `install` method is present but unrecognised is logged
and skipped — removing it from the ledger does not change the result; but
an entry with a missing `install` key (the fields read before it being
present) aborts the whole batch with an uncaught KeyError. -/
theorem C6_amended :
    (∀ (cfg : Config) (fs : FS) (tr : List Action)
       (l1 l2 : List (String × Plugin)) (key : String) (p : Plugin)
       (nm d u m : String),
       p.name = some nm → p.install_dir = some d → p.receiving_url = some u →
       p.install = some m → m ≠ "git" → m ≠ "tar" → m ≠ "url" →
       upgradeLoop cfg fs tr (l1 ++ (key, p) :: l2) = upgradeLoop cfg fs tr (l1 ++ l2)) ∧
    (∀ (cfg : Config) (fs : FS) (key : String) (p : Plugin) (nm d u : String)
       (l2 : List (String × Plugin)),
       p.name = some nm → p.install_dir = some d → p.receiving_url = some u →
       p.install = none →
       upgrade cfg ⟨fs, (key, p) :: l2⟩ = .error (.keyError "install", [.updateCatalog])) := by
  constructor
  · intro cfg fs tr l1 l2 key p nm d u m hn hd hu hi hg ht hr
    induction l1 generalizing fs tr with
    | nil =>
      simp only [List.nil_append, upgradeLoop, upgradeStep, hn, hd, hu, hi]
      rw [if_neg hg, if_neg ht, if_neg hr]
      simp
    | cons e l1 ih =>
      cases e with
      | mk k2 q =>
        simp only [List.cons_append, upgradeLoop]
        cases hstep : upgradeStep cfg fs q with
        | error e => rfl
        | ok r => exact ih r.1 (tr ++ r.2)
  · intro cfg fs key p nm d u l2 hn hd hu hi
    unfold upgrade upgradeLoop upgradeStep
    simp only [hn, hd, hu, hi]

/-- C6 witness: the amended statement applied at concrete inputs: removing
the unrecognised-method entry "c" from the ledger leaves the upgrade
result unchanged, and a ledger headed by the entry missing its method
aborts with the KeyError. -/
theorem C6_witness :
    upgradeLoop (cfgOf [] ansTrue) [] [.updateCatalog]
        ([] ++ ("c", plugUnk) :: [("b", plugGitB)])
      = upgradeLoop (cfgOf [] ansTrue) [] [.updateCatalog] ([] ++ [("b", plugGitB)]) ∧
    upgrade (cfgOf [] ansTrue) ⟨[], ("a", plugNoMethod) :: [("b", plugGitB)]⟩
      = .error (.keyError "install", [.updateCatalog]) :=
  ⟨C6_amended.1 (cfgOf [] ansTrue) [] [.updateCatalog] [] [("b", plugGitB)]
     "c" plugUnk "c" "cd" "u" "zipp" rfl rfl rfl rfl (by decide) (by decide) (by decide),
   C6_amended.2 (cfgOf [] ansTrue) [] "a" plugNoMethod "a" "ad" "u"
     [("b", plugGitB)] rfl rfl rfl rfl⟩

/-! ## C7 -/

/-- C7: a catalog entry without an `install` field makes install fail with
exit code 4 before any fetch or symlink step (the returned trace is empty)
and without touching the ledger (the process exits before the in-memory
ledger — unchanged anyway — would be saved). -/
theorem C7_no_install_method (cfg : Config) (st : MState) (pid : String)
    (k : Nat) (p : Plugin) (hlook : lookupL cfg.scriptDirectory pid = some p)
    (hins : p.install = none) :
    install cfg st pid k = .error (.exit 4, []) := by
  unfold install
  rw [hlook]
  simp only [hins]

/-- C7 witness: the theorem applied to the one-entry catalog with entry
"X" lacking an install method. -/
theorem C7_witness :
    lookupL (cfgOf [("X", plugX)] ansTrue).scriptDirectory "X" = some plugX ∧
    install (cfgOf [("X", plugX)] ansTrue) ⟨[], []⟩ "X" 0 = .error (.exit 4, []) :=
  ⟨rfl, C7_no_install_method (cfgOf [("X", plugX)] ansTrue) ⟨[], []⟩ "X" 0 plugX rfl rfl⟩

/-! ## C9 -/

/-- A pattern that is a prefix is in particular a contained substring. -/
theorem isPrefixOf_containsSub {m s : List Char} (h : m.isPrefixOf s = true) :
    containsSub m s = true := by
  cases s with
  | nil =>
    cases m with
    | nil => rfl
    | cons a as => simp [List.isPrefixOf] at h
  | cons c t => simp [containsSub, h]

/-- If a pattern occurs nowhere in `c :: t` then it is not a prefix there
and occurs nowhere in `t`. -/
theorem containsSub_false_head {m : List Char} {c : Char} {t : List Char}
    (h : containsSub m (c :: t) = false) :
    m.isPrefixOf (c :: t) = false ∧ containsSub m t = false := by
  simpa [containsSub] using h

/-- str.replace leaves a string without any occurrence of the pattern
unchanged (any fuel). -/
theorem replaceAllF_no_occur (pat rep : List Char) :
    ∀ (fuel : Nat) (s : List Char), containsSub pat s = false →
      replaceAllF pat rep fuel s = s := by
  intro fuel
  induction fuel with
  | zero => intro s _; cases s <;> rfl
  | succ n ih =>
    intro s h
    cases s with
    | nil => rfl
    | cons c t =>
      have h2 := containsSub_false_head h
      have hcond : ¬ (pat ≠ [] ∧ pat.isPrefixOf (c :: t) = true) := by
        intro hcon
        rw [h2.1] at hcon
        exact Bool.false_ne_true hcon.2
      simp only [replaceAllF, if_neg hcond]
      rw [ih t h2.2]

/-- The extension substitution leaves a string without any occurrence of
the marker unchanged (any fuel). -/
theorem subExtAllF_no_occur (marker : List Char) (rep : List Char → List Char) :
    ∀ (fuel : Nat) (s : List Char), containsSub marker s = false →
      subExtAllF marker rep fuel s = s := by
  intro fuel
  induction fuel with
  | zero => intro s _; cases s <;> rfl
  | succ n ih =>
    intro s h
    cases s with
    | nil => rfl
    | cons c t =>
      have h2 := containsSub_false_head h
      have hc1 : ('.' :: marker).isPrefixOf (c :: t) = false := by
        cases hx : ('.' :: marker).isPrefixOf (c :: t) with
        | false => rfl
        | true =>
          have hpre : marker.isPrefixOf t = true := by
            simp only [List.isPrefixOf, Bool.and_eq_true] at hx
            exact hx.2
          rw [isPrefixOf_containsSub hpre] at h2
          exact absurd h2.2 (by simp)
      have hc2 : ¬ (marker ≠ [] ∧ marker.isPrefixOf (c :: t) = true) := by
        intro hcon
        rw [h2.1] at hcon
        exact Bool.false_ne_true hcon.2
      simp only [subExtAllF, hc1, Bool.false_eq_true, if_false, if_neg hc2]
      rw [ih t h2.2]

/-- Wrapper form of `subExtAllF_no_occur`. -/
theorem subExtAll_no_occur (marker : List Char) (rep : List Char → List Char)
    (s : List Char) (h : containsSub marker s = false) :
    subExtAll marker rep s = s :=
  subExtAllF_no_occur marker rep s.length s h

/-- Wrapper form of `replaceAllF_no_occur`. -/
theorem replaceAll_no_occur (pat rep s : List Char)
    (h : containsSub pat s = false) :
    replaceAll pat rep s = s :=
  replaceAllF_no_occur pat rep s.length s h

/-- C9: the extension placeholders are substituted before the os/arch
placeholders, and the literal dot before an extension placeholder is
consumed exactly when the substitution is empty: on any non-Windows host
the executable-ext placeholder deletes itself and a directly preceding dot
(but nothing else), on Windows it becomes `exe` keeping the dot; the
shared-lib-ext placeholder keeps the dot on both (`.so` / `.dll`); and a
string containing no placeholder resolves to itself. -/
theorem C9_resolve_templates :
    (∀ (os osT arch : String), os ≠ "windows" →
       resolve_templates ⟨os, osT, arch⟩ "file.\x7b\x7bexecutable-ext\x7d\x7d" = "file" ∧
       resolve_templates ⟨os, osT, arch⟩ "lib.\x7b\x7bshared-lib-ext\x7d\x7d" = "lib.so" ∧
       resolve_templates ⟨os, osT, arch⟩ "a-\x7b\x7bexecutable-ext\x7d\x7d" = "a-") ∧
    (∀ (osT arch : String),
       resolve_templates ⟨"windows", osT, arch⟩ "file.\x7b\x7bexecutable-ext\x7d\x7d"
         = "file.exe" ∧
       resolve_templates ⟨"windows", osT, arch⟩ "lib.\x7b\x7bshared-lib-ext\x7d\x7d"
         = "lib.dll") ∧
    (∀ (h : Host) (s : String), hasPlaceholder s = false →
       resolve_templates h s = s) := by
  refine ⟨fun os osT arch hw => ⟨?_, ?_, ?_⟩, fun osT arch => ⟨?_, ?_⟩, fun h s hs => ?_⟩
  · simp only [resolve_templates, if_neg hw]; rfl
  · simp only [resolve_templates, if_neg hw]; rfl
  · simp only [resolve_templates, if_neg hw]; rfl
  · simp only [resolve_templates, String.reduceEq, reduceIte]; rfl
  · simp only [resolve_templates, String.reduceEq, reduceIte]; rfl
  · simp only [hasPlaceholder, Bool.or_eq_false_iff] at hs
    obtain ⟨h1, h2, h3, h4, h5⟩ :
        containsSub ("\x7b\x7bshared-lib-ext\x7d\x7d".toList) s.toList = false ∧
        containsSub ("\x7b\x7bexecutable-ext\x7d\x7d".toList) s.toList = false ∧
        containsSub ("\x7b\x7bos\x7d\x7d".toList) s.toList = false ∧
        containsSub ("\x7b\x7barch\x7d\x7d".toList) s.toList = false ∧
        containsSub ("\x7b\x7barch-short\x7d\x7d".toList) s.toList = false := by
      tauto
    simp only [resolve_templates]
    rw [subExtAll_no_occur _ _ _ h1, subExtAll_no_occur _ _ _ h2,
        replaceAll_no_occur _ _ _ h3, replaceAll_no_occur _ _ _ h4,
        replaceAll_no_occur _ _ _ h5]
    rfl

/-- C9 witness: the theorem applied on the Linux and Windows hosts and to
a placeholder-free string. -/
theorem C9_witness :
    resolve_templates hostLinux "file.\x7b\x7bexecutable-ext\x7d\x7d" = "file" ∧
    resolve_templates hostWindows "file.\x7b\x7bexecutable-ext\x7d\x7d" = "file.exe" ∧
    resolve_templates hostLinux "plain-1.0/file.so" = "plain-1.0/file.so" :=
  ⟨(C9_resolve_templates.1 "linux" "Linux" "x86_64" (by decide)).1,
   (C9_resolve_templates.2.1 "Windows" "AMD64").1,
   C9_resolve_templates.2.2 hostLinux "plain-1.0/file.so" (by decide)⟩

/-! ## Filesystem lemmas -/

/-- The erased path is gone. -/
theorem lookupFS_eraseFS_self (fs : FS) (p : Path) :
    lookupFS (eraseFS fs p) p = none := by
  induction fs with
  | nil => rfl
  | cons kv rest ih =>
    by_cases hk : kv.1 = p
    · simpa [eraseFS, List.filter, hk] using ih
    · simpa [eraseFS, List.filter, hk, lookupFS] using ih

/-- Other paths are untouched by an erase. -/
theorem lookupFS_eraseFS_ne (fs : FS) (p q : Path) (h : q ≠ p) :
    lookupFS (eraseFS fs p) q = lookupFS fs q := by
  induction fs with
  | nil => rfl
  | cons kv rest ih =>
    by_cases hk : kv.1 = p
    · have hkq : kv.1 ≠ q := fun hq => h (hq.symm.trans hk)
      calc lookupFS (eraseFS (kv :: rest) p) q
          = lookupFS (eraseFS rest p) q := by simp [eraseFS, List.filter, hk]
        _ = lookupFS rest q := ih
        _ = lookupFS (kv :: rest) q := by rw [lookupFS, if_neg hkq]
    · by_cases hq : kv.1 = q
      · simp [eraseFS, List.filter, hk, lookupFS, hq, h]
      · calc lookupFS (eraseFS (kv :: rest) p) q
            = lookupFS (eraseFS rest p) q := by
              simp [eraseFS, List.filter, hk, lookupFS, hq]
          _ = lookupFS rest q := ih
          _ = lookupFS (kv :: rest) q := by rw [lookupFS, if_neg hq]

/-- The inserted path is present with the inserted node. -/
theorem lookupFS_insertFS_self (fs : FS) (p : Path) (v : FsNode) :
    lookupFS (insertFS fs p v) p = some v := by
  simp [insertFS, lookupFS]

/-- Other paths are untouched by an insert. -/
theorem lookupFS_insertFS_ne (fs : FS) (p q : Path) (v : FsNode) (h : q ≠ p) :
    lookupFS (insertFS fs p v) q = lookupFS fs q := by
  simp only [insertFS, lookupFS]
  rw [if_neg (fun hpq => h hpq.symm)]
  exact lookupFS_eraseFS_ne fs p q h

/-- Erasing yields a sub-filesystem. -/
theorem FSsub_erase (fs : FS) (p : Path) : FSsub (eraseFS fs p) fs := by
  intro q v h
  by_cases hq : q = p
  · rw [hq, lookupFS_eraseFS_self] at h; exact absurd h (by simp)
  · rwa [lookupFS_eraseFS_ne fs p q hq] at h

/-- A path missing outright does not exist. -/
theorem existsPath_of_lookup_none {fs : FS} {p : Path}
    (h : lookupFS fs p = none) : existsPath fs p = false := by
  simp [existsPath, existsFuel, h]

/-- Chain existence transfers to a larger filesystem (same fuel). -/
theorem existsFuel_mono_fs {fs1 fs2 : FS} (hsub : FSsub fs1 fs2) :
    ∀ (n : Nat) (p : Path), existsFuel fs1 n p = true → existsFuel fs2 n p = true := by
  intro n
  induction n with
  | zero => intro p h; simp [existsFuel] at h
  | succ m ih =>
    intro p h
    rw [existsFuel] at h
    rw [existsFuel]
    cases hl : lookupFS fs1 p with
    | none => rw [hl] at h; simp at h
    | some v =>
      rw [hl] at h
      rw [hsub p v hl]
      cases v with
      | file => rfl
      | symlink t => exact ih t h

/-- Resolution agrees on a larger filesystem along an existing chain
(same fuel). -/
theorem resolveFuel_eq_of_sub {fs1 fs2 : FS} (hsub : FSsub fs1 fs2) :
    ∀ (n : Nat) (p : Path), existsFuel fs1 n p = true →
      resolveFuel fs2 n p = resolveFuel fs1 n p := by
  intro n
  induction n with
  | zero => intro p h; simp [existsFuel] at h
  | succ m ih =>
    intro p h
    rw [existsFuel] at h
    rw [resolveFuel, resolveFuel]
    cases hl : lookupFS fs1 p with
    | none => rw [hl] at h; simp at h
    | some v =>
      rw [hl] at h
      rw [hsub p v hl]
      cases v with
      | file => rfl
      | symlink t => exact ih t h

/-- Chain existence is monotone in the fuel. -/
theorem existsFuel_fuel_mono {fs : FS} :
    ∀ {n m : Nat} {p : Path}, existsFuel fs n p = true → n ≤ m →
      existsFuel fs m p = true := by
  intro n
  induction n with
  | zero => intro m p h _; simp [existsFuel] at h
  | succ k ih =>
    intro m p h hle
    obtain ⟨m', rfl⟩ : ∃ m', m = m' + 1 := by
      cases m with
      | zero => exact absurd hle (by simp)
      | succ m' => exact ⟨m', rfl⟩
    rw [existsFuel] at h
    rw [existsFuel]
    cases hl : lookupFS fs p with
    | none => rw [hl] at h; simp at h
    | some v =>
      rw [hl] at h
      cases v with
      | file => rfl
      | symlink t => exact ih h (Nat.succ_le_succ_iff.mp hle)

/-- Along an existing chain, adding fuel does not change resolution. -/
theorem resolveFuel_fuel_eq {fs : FS} :
    ∀ {n m : Nat} {p : Path}, existsFuel fs n p = true → n ≤ m →
      resolveFuel fs m p = resolveFuel fs n p := by
  intro n
  induction n with
  | zero => intro m p h _; simp [existsFuel] at h
  | succ k ih =>
    intro m p h hle
    obtain ⟨m', rfl⟩ : ∃ m', m = m' + 1 := by
      cases m with
      | zero => exact absurd hle (by simp)
      | succ m' => exact ⟨m', rfl⟩
    rw [existsFuel] at h
    rw [resolveFuel, resolveFuel]
    cases hl : lookupFS fs p with
    | none => rw [hl] at h
    | some v =>
      rw [hl] at h
      cases v with
      | file => rfl
      | symlink t => exact ih h (Nat.succ_le_succ_iff.mp hle)

/-! ## C10 -/

/-- Inductive core for the preservation half of C10: along an uninstall
run over a sub-filesystem of `fs`, a symlink that is dangling in `fs`
survives untouched. -/
theorem uninstall_files_dangling_aux (host : Host) :
    ∀ (l : List String) (fsi fs : FS) (folder : Path) (fs' : FS) (p t : Path),
      FSsub fsi fs → fsi.length ≤ fs.length →
      lookupFS fsi p = some (.symlink t) →
      existsPath fs p = false →
      uninstall_files host fsi l folder = .ok fs' →
      lookupFS fs' p = some (.symlink t) := by
  intro l
  induction l with
  | nil =>
    intro fsi fs folder fs' p t _ _ hp _ hok
    rw [uninstall_files] at hok
    cases hok
    exact hp
  | cons f rest ih =>
    intro fsi fs folder fs' p t hsub hlen hp hd hok
    rw [uninstall_files] at hok
    by_cases h1 : existsPath fsi (folder ++ nameOf (resolve_templates host f)) = false
    · rw [if_pos h1] at hok
      exact ih fsi fs folder fs' p t hsub hlen hp hd hok
    · rw [if_neg h1] at hok
      by_cases h2 : isSymlink fsi (folder ++ nameOf (resolve_templates host f)) = false
      · rw [if_pos h2] at hok
        exact absurd hok (by simp)
      · rw [if_neg h2] at hok
        have hpd : p ≠ folder ++ nameOf (resolve_templates host f) := by
          intro he
          have hex : existsPath fsi p = true := by
            rw [he]
            exact eq_true_of_ne_false h1
          have hex2 : existsFuel fs (fsi.length + 1) p = true :=
            existsFuel_mono_fs hsub (fsi.length + 1) p hex
          have hex3 : existsPath fs p = true :=
            existsFuel_fuel_mono hex2 (Nat.succ_le_succ hlen)
          rw [hd] at hex3
          exact Bool.false_ne_true hex3
        apply ih (eraseFS fsi (folder ++ nameOf (resolve_templates host f))) fs folder fs' p t
        · exact fun q v h => hsub q v (FSsub_erase fsi _ q v h)
        · exact le_trans (List.length_filter_le _ fsi) hlen
        · rw [lookupFS_eraseFS_ne fsi _ p hpd]
          exact hp
        · exact hd
        · exact hok

/-- Inductive core for the fatal half of C10: an uninstall run over a
sub-filesystem of `fs` can only fail with exit 12, and only because some
entry's destination is present as a regular (non-symlink) node. -/
theorem uninstall_files_error_aux (host : Host) :
    ∀ (l : List String) (fsi fs : FS) (folder : Path) (e : Err),
      FSsub fsi fs →
      uninstall_files host fsi l folder = .error e →
      e = .exit 12 ∧ ∃ f ∈ l,
        lookupFS fs (folder ++ nameOf (resolve_templates host f)) = some .file := by
  intro l
  induction l with
  | nil =>
    intro fsi fs folder e _ hok
    rw [uninstall_files] at hok
    exact absurd hok (by simp)
  | cons f rest ih =>
    intro fsi fs folder e hsub herr
    rw [uninstall_files] at herr
    by_cases h1 : existsPath fsi (folder ++ nameOf (resolve_templates host f)) = false
    · rw [if_pos h1] at herr
      obtain ⟨he, g, hg, hlook⟩ := ih fsi fs folder e hsub herr
      exact ⟨he, g, List.mem_cons_of_mem f hg, hlook⟩
    · rw [if_neg h1] at herr
      by_cases h2 : isSymlink fsi (folder ++ nameOf (resolve_templates host f)) = false
      · rw [if_pos h2] at herr
        refine ⟨by cases herr; rfl, f, List.mem_cons_self f rest, ?_⟩
        cases hl : lookupFS fsi (folder ++ nameOf (resolve_templates host f)) with
        | none => exact absurd (existsPath_of_lookup_none hl) h1
        | some v =>
          cases v with
          | file => exact hsub _ .file hl
          | symlink t =>
            rw [show isSymlink fsi (folder ++ nameOf (resolve_templates host f)) = true from by
              simp [isSymlink, hl]] at h2
            exact absurd h2 (by decide)
      · rw [if_neg h2] at herr
        obtain ⟨he, g, hg, hlook⟩ :=
          ih (eraseFS fsi (folder ++ nameOf (resolve_templates host f))) fs folder e
            (fun q v h => hsub q v (FSsub_erase fsi _ q v h)) herr
        exact ⟨he, g, List.mem_cons_of_mem f hg, hlook⟩

/-- C10: uninstall_files decides existence by following symlinks: a
destination that is a dangling symlink is treated as non-existent, skipped
and left in place (first half: a symlink dangling in the initial
filesystem is still present, with the same target, after any successful
run); and the exit-12 fatal check is reached only for destinations whose
target exists — every failing run fails with exit 12 because some entry's
destination is a regular non-symlink node (second half). -/
theorem C10_dangling_symlinks :
    (∀ (host : Host) (fs : FS) (l : List String) (folder : Path) (fs' : FS) (p t : Path),
       uninstall_files host fs l folder = .ok fs' →
       lookupFS fs p = some (.symlink t) → existsPath fs p = false →
       lookupFS fs' p = some (.symlink t)) ∧
    (∀ (host : Host) (fs : FS) (l : List String) (folder : Path) (e : Err),
       uninstall_files host fs l folder = .error e →
       e = .exit 12 ∧ ∃ f ∈ l,
         lookupFS fs (folder ++ nameOf (resolve_templates host f)) = some .file) :=
  ⟨fun host fs l folder fs' p t hok hp hd =>
     uninstall_files_dangling_aux host l fs fs folder fs' p t
       (fun _ _ h => h) le_rfl hp hd hok,
   fun host fs l folder e herr =>
     uninstall_files_error_aux host l fs fs folder e (fun _ _ h => h) herr⟩

/-- C10 witness: on a filesystem holding only the dangling symlink f→g,
uninstalling ["f"] leaves the link in place; on a filesystem where h is a
regular file, uninstalling ["h"] fails with exit 12 and h is the
culpable destination. -/
theorem C10_witness :
    lookupFS [(["f"], FsNode.symlink ["g"])] ["f"] = some (.symlink ["g"]) ∧
    (Err.exit 12 = Err.exit 12 ∧ ∃ f ∈ ["h"],
       lookupFS [(["h"], FsNode.file)] ([] ++ nameOf (resolve_templates hostLinux f))
         = some .file) :=
  ⟨C10_dangling_symlinks.1 hostLinux [(["f"], .symlink ["g"])] ["f"] []
     [(["f"], .symlink ["g"])] ["f"] ["g"] rfl rfl rfl,
   C10_dangling_symlinks.2 hostLinux [(["h"], .file)] ["h"] [] (.exit 12) rfl⟩

/-! ## C3 -/

/-- C3 amended: when the destination of an entry is a symlink resolving to
a different target than the source, the user is prompted; declining makes
install_files terminate with exit code 15 (the same code as the
foreign-file conflict), not with the clean exit 0 the claim states;
accepting removes the stale link and creates the new symlink, reporting
the destination as installed. -/
theorem C3_wrong_target_prompt (host : Host) (ans : Nat → Bool) (fs : FS) (k : Nat)
    (srcdir dstdir : Path) (e : String) (t : Path)
    (hdstdir : existsPath fs dstdir = true)
    (hsrc : existsPath fs (srcOf host srcdir e) = true)
    (hlink : lookupFS fs (dstOf host dstdir e) = some (.symlink t))
    (hwrong : resolvePath fs (dstOf host dstdir e)
      ≠ resolvePath fs (srcOf host srcdir e)) :
    (ans k = false →
       install_files host ans fs k srcdir [e] dstdir = .error (.exit 15)) ∧
    (ans k = true →
       install_files host ans fs k srcdir [e] dstdir
         = .ok (insertFS (eraseFS fs (dstOf host dstdir e)) (dstOf host dstdir e)
                  (.symlink (srcOf host srcdir e)), k + 1, [dstOf host dstdir e])) := by
  simp only [srcOf, dstOf] at hsrc hlink hwrong ⊢
  have hsym : isSymlink fs (dstdir ++ nameOf (resolve_templates host e)) = true := by
    simp [isSymlink, hlink]
  have herased : isSymlink (eraseFS fs (dstdir ++ nameOf (resolve_templates host e)))
      (dstdir ++ nameOf (resolve_templates host e)) = false := by
    simp [isSymlink, lookupFS_eraseFS_self]
  constructor
  · intro hk
    unfold install_files
    rw [if_pos hdstdir]
    simp only [installFilesLoop, hsrc, hsym, hwrong, hk]
    simp [hwrong]
  · intro hk
    unfold install_files
    rw [if_pos hdstdir]
    simp only [installFilesLoop, hsrc, hsym, hwrong, hk, herased]
    simp [hwrong, herased]

/-- C3 counterexample: the claim says declining the overwrite prompt is a
UserAborted that exits cleanly with code 0; at the concrete input below
(stale link d/f pointing at x instead of s/f, user declines) the run exits
with code 15, the foreign-file conflict code, which is not 0. -/
theorem C3_counterexample :
    install_files hostLinux ansFalse fs3 0 ["s"] ["f"] ["d"] = .error (.exit 15) ∧
    Err.exit 15 ≠ Err.exit 0 :=
  ⟨rfl, by decide⟩

/-- C3 witness: the amended statement applied to the concrete stale-link
state, once declining (exit 15) and once accepting (relinked). -/
theorem C3_witness :
    (ansFalse 0 = false ∧
     install_files hostLinux ansFalse fs3 0 ["s"] ["f"] ["d"] = .error (.exit 15)) ∧
    (ansTrue 0 = true ∧
     install_files hostLinux ansTrue fs3 0 ["s"] ["f"] ["d"]
       = .ok (insertFS (eraseFS fs3 (dstOf hostLinux ["d"] "f")) (dstOf hostLinux ["d"] "f")
                (.symlink (srcOf hostLinux ["s"] "f")), 1, [dstOf hostLinux ["d"] "f"])) :=
  ⟨⟨rfl, (C3_wrong_target_prompt hostLinux ansFalse fs3 0 ["s"] ["d"] "f" ["x"]
      rfl rfl rfl (by decide)).1 rfl⟩,
   ⟨rfl, (C3_wrong_target_prompt hostLinux ansTrue fs3 0 ["s"] ["d"] "f" ["x"]
      rfl rfl rfl (by decide)).2 rfl⟩⟩

/-! ## C8 -/

/-- Erasing a path that is not present changes nothing. -/
theorem eraseFS_of_lookup_none {fs : FS} {p : Path} (h : lookupFS fs p = none) :
    eraseFS fs p = fs := by
  induction fs with
  | nil => rfl
  | cons kv rest ih =>
    rw [lookupFS] at h
    by_cases hk : kv.1 = p
    · rw [if_pos hk] at h; exact absurd h (by simp)
    · rw [if_neg hk] at h
      show (kv :: rest).filter (fun kv => kv.1 ≠ p) = kv :: rest
      rw [List.filter_cons, if_pos (by simp [hk])]
      rw [show rest.filter (fun kv => kv.1 ≠ p) = rest from ih h]

/-- Inserting at an absent path grows the filesystem by one entry. -/
theorem insertFS_length_absent {fs : FS} {p : Path} (v : FsNode)
    (h : lookupFS fs p = none) :
    (insertFS fs p v).length = fs.length + 1 := by
  rw [insertFS, eraseFS_of_lookup_none h]
  rfl

/-- A present regular file exists. -/
theorem existsPath_of_lookup_file {fs : FS} {p : Path}
    (h : lookupFS fs p = some .file) : existsPath fs p = true := by
  simp [existsPath, existsFuel, h]

/-- Paths other than the created destinations are untouched by
`buildLinks`. -/
theorem buildLinks_lookup_other (host : Host) (srcdir dstdir : Path) :
    ∀ (files : List String) (fs : FS) (q : Path),
      (∀ f ∈ files, dstOf host dstdir f ≠ q) →
      lookupFS (buildLinks host srcdir dstdir fs files) q = lookupFS fs q := by
  intro files
  induction files with
  | nil => intro fs q _; rfl
  | cons f rest ih =>
    intro fs q hne
    rw [buildLinks, ih _ q (fun g hg => hne g (List.mem_cons_of_mem f hg)),
        lookupFS_insertFS_ne]
    exact fun hq => hne f (List.mem_cons_self f rest) hq.symm

/-- Appending to a fixed prefix is injective. -/
theorem dst_append_inj {dstdir n1 n2 : Path} (h : dstdir ++ n1 = dstdir ++ n2) :
    n1 = n2 :=
  List.append_cancel_left h

/-- After `buildLinks` over entries with pairwise distinct basenames, each
destination carries the symlink to its source. -/
theorem buildLinks_lookup_self (host : Host) (srcdir dstdir : Path) :
    ∀ (files : List String) (fs : FS) (f : String),
      f ∈ files →
      (files.map (fun g => nameOf (resolve_templates host g))).Nodup →
      lookupFS (buildLinks host srcdir dstdir fs files) (dstOf host dstdir f)
        = some (.symlink (srcOf host srcdir f)) := by
  intro files
  induction files with
  | nil => intro fs f hf _; exact absurd hf (by simp)
  | cons g rest ih =>
    intro fs f hf hnd
    rw [List.map_cons, List.nodup_cons] at hnd
    rcases List.mem_cons.mp hf with hfg | hfr
    · subst hfg
      rw [buildLinks, buildLinks_lookup_other]
      · exact lookupFS_insertFS_self fs _ _
      · intro f' hf' heq
        exact hnd.1 (List.mem_map.mpr ⟨f', hf',
          dst_append_inj heq ▸ rfl⟩)
    · exact ih _ f hfr hnd.2

/-- When all destinations are initially absent, `buildLinks` only adds
entries: every present path keeps its node. -/
theorem FSsub_buildLinks (host : Host) (srcdir dstdir : Path)
    (files : List String) (fs : FS)
    (habs : ∀ f ∈ files, lookupFS fs (dstOf host dstdir f) = none) :
    FSsub fs (buildLinks host srcdir dstdir fs files) := by
  intro q v hq
  rw [buildLinks_lookup_other host srcdir dstdir files fs q]
  · exact hq
  · intro f hf heq
    have hcontra := habs f hf
    rw [heq, hq] at hcontra
    exact absurd hcontra (by simp)

/-- Length of `buildLinks` over absent, pairwise distinct destinations. -/
theorem buildLinks_length (host : Host) (srcdir dstdir : Path) :
    ∀ (files : List String) (fs : FS),
      (∀ f ∈ files, lookupFS fs (dstOf host dstdir f) = none) →
      (files.map (fun g => nameOf (resolve_templates host g))).Nodup →
      (buildLinks host srcdir dstdir fs files).length = fs.length + files.length := by
  intro files
  induction files with
  | nil => intro fs _ _; rfl
  | cons f rest ih =>
    intro fs habs hnd
    rw [List.map_cons, List.nodup_cons] at hnd
    have habs' : ∀ g ∈ rest,
        lookupFS (insertFS fs (dstOf host dstdir f) (.symlink (srcOf host srcdir f)))
          (dstOf host dstdir g) = none := by
      intro g hg
      rw [lookupFS_insertFS_ne]
      · exact habs g (List.mem_cons_of_mem f hg)
      · intro heq
        exact hnd.1 (List.mem_map.mpr ⟨g, hg, dst_append_inj heq ▸ rfl⟩)
    rw [buildLinks, ih _ habs' hnd.2,
        insertFS_length_absent _ (habs f (List.mem_cons_self f rest))]
    simp [Nat.add_assoc, Nat.add_comm 1 rest.length]

/-- Shape of a successful __install_files__ loop run over initially
absent, pairwise distinct destinations: every entry takes the creation
branch, so the result filesystem is `buildLinks`, the prompt counter is
untouched, every destination is reported installed, and every source
still exists in the final filesystem (with one fuel to spare). -/
theorem installFilesLoop_fresh (host : Host) (ans : Nat → Bool) (srcdir dstdir : Path) :
    ∀ (files : List String) (fs : FS) (k : Nat) (fs' : FS) (k' : Nat) (out : List Path),
      (∀ f ∈ files, lookupFS fs (dstOf host dstdir f) = none) →
      (files.map (fun g => nameOf (resolve_templates host g))).Nodup →
      installFilesLoop host ans srcdir dstdir fs k files = .ok (fs', k', out) →
      fs' = buildLinks host srcdir dstdir fs files ∧ k' = k ∧
      out = files.map (fun f => dstOf host dstdir f) ∧
      ∀ f ∈ files, existsFuel fs' fs'.length (srcOf host srcdir f) = true := by
  intro files
  induction files with
  | nil =>
    intro fs k fs' k' out _ _ hok
    rw [installFilesLoop] at hok
    cases hok
    exact ⟨rfl, rfl, rfl, by simp⟩
  | cons f rest ih =>
    intro fs k fs' k' out habs hnd hok
    rw [List.map_cons, List.nodup_cons] at hnd
    have hd0 : lookupFS fs (dstOf host dstdir f) = none :=
      habs f (List.mem_cons_self f rest)
    have hd0r : lookupFS fs (dstdir ++ nameOf (resolve_templates host f)) = none := hd0
    have hexF : existsPath fs (dstdir ++ nameOf (resolve_templates host f)) = false :=
      existsPath_of_lookup_none hd0r
    have hsymF : isSymlink fs (dstdir ++ nameOf (resolve_templates host f)) = false := by
      simp [isSymlink, hd0r]
    simp only [installFilesLoop] at hok
    by_cases hsrc : existsPath fs (srcdir ++ comps (resolve_templates host f)) = false
    · rw [if_pos hsrc] at hok
      exact absurd hok (by simp)
    · rw [if_neg hsrc] at hok
      rw [if_neg (by simp [hexF])] at hok
      rw [if_neg (by simp [hsymF])] at hok
      dsimp only at hok
      rw [if_neg (by simp [hsymF])] at hok
      have hsrcT : existsPath fs (srcdir ++ comps (resolve_templates host f)) = true :=
        eq_true_of_ne_false hsrc
      have habs' : ∀ g ∈ rest,
          lookupFS (insertFS fs (dstdir ++ nameOf (resolve_templates host f))
              (.symlink (srcdir ++ comps (resolve_templates host f))))
            (dstOf host dstdir g) = none := by
        intro g hg
        rw [lookupFS_insertFS_ne]
        · exact habs g (List.mem_cons_of_mem f hg)
        · intro heq
          exact hnd.1 (List.mem_map.mpr ⟨g, hg, dst_append_inj heq⟩)
      cases hrec : installFilesLoop host ans srcdir dstdir
          (insertFS fs (dstdir ++ nameOf (resolve_templates host f))
            (.symlink (srcdir ++ comps (resolve_templates host f)))) k rest with
      | error e =>
        rw [hrec] at hok
        exact absurd hok (by simp)
      | ok r =>
        obtain ⟨fs2, k2, out2⟩ := r
        rw [hrec] at hok
        cases hok
        obtain ⟨hfs2, hk2, hout2, hsrcall⟩ := ih _ k fs' k' out2 habs' hnd.2 hrec
        have hfs3 : fs' = buildLinks host srcdir dstdir fs (f :: rest) := by
          rw [buildLinks]; exact hfs2
        have hlen2 : fs.length + 1 ≤ fs'.length := by
          rw [hfs2, buildLinks_length host srcdir dstdir rest _ habs' hnd.2,
              insertFS_length_absent _ hd0r]
          omega
        refine ⟨hfs3, hk2, ?_, ?_⟩
        · show (dstdir ++ nameOf (resolve_templates host f)) :: out2 = _
          rw [hout2]
          rfl
        · intro g hg
          rcases List.mem_cons.mp hg with hgf | hgr
          · subst hgf
            have hsub : FSsub fs fs' := by
              rw [hfs2]
              intro q v hq
              apply FSsub_buildLinks host srcdir dstdir rest _ habs' q v
              rw [lookupFS_insertFS_ne]
              · exact hq
              · intro heq
                rw [heq] at hq
                exact absurd (hd0r.symm.trans hq) (by simp)
            have h1 : existsFuel fs' (fs.length + 1) (srcOf host srcdir g) = true :=
              existsFuel_mono_fs hsub (fs.length + 1) _ hsrcT
            exact existsFuel_fuel_mono h1 hlen2
          · exact hsrcall g hgr

/-- A loop run in which every entry is already correctly linked is the
identity: nothing is asked, removed, created or reported. -/
theorem installFilesLoop_stable (host : Host) (ans : Nat → Bool) (srcdir dstdir : Path) :
    ∀ (files : List String) (fs : FS) (k : Nat),
      (∀ f ∈ files,
        existsPath fs (srcOf host srcdir f) = true ∧
        isSymlink fs (dstOf host dstdir f) = true ∧
        resolvePath fs (dstOf host dstdir f) = resolvePath fs (srcOf host srcdir f)) →
      installFilesLoop host ans srcdir dstdir fs k files = .ok (fs, k, []) := by
  intro files
  induction files with
  | nil => intro fs k _; rfl
  | cons f rest ih =>
    intro fs k hall
    obtain ⟨h1, h2, h3⟩ := hall f (List.mem_cons_self f rest)
    simp only [srcOf, dstOf] at h1 h2 h3
    simp only [installFilesLoop]
    rw [if_neg (by simp [h1])]
    rw [if_neg (by simp [h2])]
    rw [if_neg (by simp [h3])]
    dsimp only
    rw [if_pos ⟨h2, h3⟩]
    exact ih fs k (fun g hg => hall g (List.mem_cons_of_mem f hg))

/-- C8 amended: install_files is idempotent on fresh installs of filelists
without basename collisions: when every entry resolves to a nonempty
basename, the resolved basenames are pairwise distinct, and no destination
path pre-exists, then after one successful call a second call with the
same arguments succeeds, changes nothing on disk, consumes no prompts and
returns the empty list (no already-linked file is re-reported).  The
claim's unrestricted form is refuted by `C8_counterexample`: two entries
sharing a basename make the second call fail with exit 15. -/
theorem C8_install_files_idempotent (host : Host) (ans : Nat → Bool)
    (fs : FS) (k k2 : Nat) (srcdir : Path) (files : List String) (dstdir : Path)
    (fs' : FS) (k' : Nat) (out : List Path)
    (habs : ∀ f ∈ files, lookupFS fs (dstOf host dstdir f) = none)
    (hnames : (files.map (fun g => nameOf (resolve_templates host g))).Nodup)
    (hne : ∀ f ∈ files, nameOf (resolve_templates host f) ≠ [])
    (h1 : install_files host ans fs k srcdir files dstdir = .ok (fs', k', out)) :
    install_files host ans fs' k2 srcdir files dstdir = .ok (fs', k2, []) := by
  unfold install_files at h1
  -- the filesystem after the destination directory is ensured
  by_cases hdd : existsPath fs dstdir = true
  case pos =>
    rw [if_pos hdd] at h1
    obtain ⟨hfs', hk', hout, hsrcall⟩ :=
      installFilesLoop_fresh host ans srcdir dstdir files fs k fs' k' out habs hnames h1
    have hsub : FSsub fs fs' := hfs' ▸ FSsub_buildLinks host srcdir dstdir files fs habs
    have hlen : fs.length ≤ fs'.length := by
      rw [hfs', buildLinks_length host srcdir dstdir files fs habs hnames]
      omega
    have hdd' : existsPath fs' dstdir = true :=
      existsFuel_fuel_mono (existsFuel_mono_fs hsub (fs.length + 1) dstdir hdd)
        (Nat.succ_le_succ hlen)
    unfold install_files
    rw [if_pos hdd']
    apply installFilesLoop_stable
    intro f hf
    have hlook : lookupFS fs' (dstOf host dstdir f)
        = some (.symlink (srcOf host srcdir f)) := by
      rw [hfs']
      exact buildLinks_lookup_self host srcdir dstdir files fs f hf hnames
    have hsrcE : existsFuel fs' fs'.length (srcOf host srcdir f) = true :=
      hsrcall f hf
    refine ⟨existsFuel_fuel_mono hsrcE (Nat.le_succ _), by simp [isSymlink, hlook], ?_⟩
    rw [resolvePath, resolvePath, resolveFuel, hlook]
    exact (resolveFuel_fuel_eq hsrcE (Nat.le_succ _)).symm
  case neg =>
    rw [if_neg hdd] at h1
    have habs0 : ∀ f ∈ files,
        lookupFS (insertFS fs dstdir .file) (dstOf host dstdir f) = none := by
      intro f hf
      rw [lookupFS_insertFS_ne]
      · exact habs f hf
      · intro heq
        have : nameOf (resolve_templates host f) = [] := by
          have hlen := congrArg List.length heq
          simp [dstOf] at hlen
          exact hlen
        exact hne f hf this
    obtain ⟨hfs', hk', hout, hsrcall⟩ :=
      installFilesLoop_fresh host ans srcdir dstdir files _ k fs' k' out habs0 hnames h1
    have hsub : FSsub (insertFS fs dstdir .file) fs' :=
      hfs' ▸ FSsub_buildLinks host srcdir dstdir files _ habs0
    have hlen : (insertFS fs dstdir .file).length ≤ fs'.length := by
      rw [hfs', buildLinks_length host srcdir dstdir files _ habs0 hnames]
      omega
    have hdd0 : existsPath (insertFS fs dstdir .file) dstdir = true :=
      existsPath_of_lookup_file (lookupFS_insertFS_self fs dstdir .file)
    have hdd' : existsPath fs' dstdir = true :=
      existsFuel_fuel_mono (existsFuel_mono_fs hsub _ dstdir hdd0)
        (Nat.succ_le_succ hlen)
    unfold install_files
    rw [if_pos hdd']
    apply installFilesLoop_stable
    intro f hf
    have hlook : lookupFS fs' (dstOf host dstdir f)
        = some (.symlink (srcOf host srcdir f)) := by
      rw [hfs']
      exact buildLinks_lookup_self host srcdir dstdir files _ f hf hnames
    have hsrcE : existsFuel fs' fs'.length (srcOf host srcdir f) = true :=
      hsrcall f hf
    refine ⟨existsFuel_fuel_mono hsrcE (Nat.le_succ _), by simp [isSymlink, hlook], ?_⟩
    rw [resolvePath, resolvePath, resolveFuel, hlook]
    exact (resolveFuel_fuel_eq hsrcE (Nat.le_succ _)).symm

/-- C8 counterexample: with two entries sharing the basename f and the
oracle answering yes only to the first prompt, the first call succeeds
(relinking d/f once, reporting it twice), but the second call with the
identical arguments asks a second question and fails with exit 15 — a
successful call followed by an identical call that does not succeed,
refuting the unrestricted idempotence claim. -/
theorem C8_counterexample :
    install_files hostLinux ansFirst fs8 0 ["s"] ["a/f", "b/f"] ["d"]
      = .ok (fs8after, 1, [["d", "f"], ["d", "f"]]) ∧
    install_files hostLinux ansFirst fs8after 0 ["s"] ["a/f", "b/f"] ["d"]
      = .error (.exit 15) :=
  ⟨rfl, rfl⟩

/-- C8 witness: the amended theorem applied to the fresh two-file install:
after the first successful call the second call returns the same
filesystem and the empty list. -/
theorem C8_witness :
    install_files hostLinux ansFirst fs8b 0 ["s"] ["a.lua", "b.lua"] ["d"]
      = .ok (fs8bAfter, 0, [["d", "a.lua"], ["d", "b.lua"]]) ∧
    install_files hostLinux ansFirst fs8bAfter 0 ["s"] ["a.lua", "b.lua"] ["d"]
      = .ok (fs8bAfter, 0, []) :=
  ⟨rfl,
   C8_install_files_idempotent hostLinux ansFirst fs8b 0 0 ["s"] ["a.lua", "b.lua"] ["d"]
     fs8bAfter 0 [["d", "a.lua"], ["d", "b.lua"]]
     (by decide) (by decide) (by decide) rfl⟩

end Mplug
